import Mathlib

/-!
Verification of the txtmux terminal multiplexer daemon core.

The Python sources are shallowly embedded: byte strings become `List Nat`
(each element a byte value), Python `str` values become `List Nat` of
Unicode codepoints, Python dicts become insertion-ordered association
lists, and fallible functions return `Option`/`Except` mirroring the
exact order of checks and `raise` statements in the source.
-/

namespace Txtmux

/-! ## Wire protocol codec (`src/txtmux/protocol.py`) -/

/-- The `MessageType` IntEnum from `protocol.py` (values 0..11). -/
inductive MessageType where
  | identify | newSession | attach | detach | listSessions | resize
  | inputMsg | outputMsg | errorMsg | sessionInfo | shellExited | killSession
deriving DecidableEq

/-- Numeric value of a message type, as in the Python IntEnum. -/
def MessageType.toNat : MessageType → Nat
  | .identify => 0
  | .newSession => 1
  | .attach => 2
  | .detach => 3
  | .listSessions => 4
  | .resize => 5
  | .inputMsg => 6
  | .outputMsg => 7
  | .errorMsg => 8
  | .sessionInfo => 9
  | .shellExited => 10
  | .killSession => 11

/-- `MessageType(value)` conversion: `some` for 0..11, `none` means the
Python constructor raises `ValueError`. -/
def MessageType.ofNat? : Nat → Option MessageType
  | 0 => some .identify
  | 1 => some .newSession
  | 2 => some .attach
  | 3 => some .detach
  | 4 => some .listSessions
  | 5 => some .resize
  | 6 => some .inputMsg
  | 7 => some .outputMsg
  | 8 => some .errorMsg
  | 9 => some .sessionInfo
  | 10 => some .shellExited
  | 11 => some .killSession
  | _ => none

/-- A protocol message: type plus raw payload bytes. -/
structure Message where
  msgType : MessageType
  payload : List Nat
deriving DecidableEq

/-- `struct.pack("!I", n)`: big-endian unsigned 32-bit encoding. -/
def u32be (n : Nat) : List Nat :=
  [n / 16777216 % 256, n / 65536 % 256, n / 256 % 256, n % 256]

/-- `struct.unpack` of a big-endian unsigned integer from bytes. -/
def beToNat (l : List Nat) : Nat :=
  l.foldl (fun a b => a * 256 + b) 0

/-- `HEADER_SIZE = struct.calcsize("!II") = 8`. -/
def headerSize : Nat := 8

/-- `Message.encode`: 8-byte header (type, payload length) + payload. -/
def Message.encode (m : Message) : List Nat :=
  u32be m.msgType.toNat ++ u32be m.payload.length ++ m.payload

/-- Result of `decode`: `(None, data)` becomes `incomplete data`;
`(message, remaining)` becomes `ok`; a `ValueError` raised by the
`MessageType` constructor becomes `typeError`. -/
inductive DecodeResult where
  | incomplete (data : List Nat)
  | ok (m : Message) (remaining : List Nat)
  | typeError (t : Nat)
deriving DecidableEq

/-- The payload length declared in the header of a buffer. -/
def declaredLen (data : List Nat) : Nat :=
  beToNat ((data.drop 4).take 4)

/-- `decode(data)` from `protocol.py`. -/
def decode (data : List Nat) : DecodeResult :=
  if data.length < headerSize then .incomplete data
  else
    let msgTypeInt := beToNat (data.take 4)
    let payloadLen := declaredLen data
    let totalLen := headerSize + payloadLen
    if data.length < totalLen then .incomplete data
    else
      match MessageType.ofNat? msgTypeInt with
      | none => .typeError msgTypeInt
      | some t => .ok ⟨t, (data.drop headerSize).take payloadLen⟩ (data.drop totalLen)

/-! ### Codec lemmas -/

theorem beToNat_u32be (n : Nat) (h : n < 4294967296) : beToNat (u32be n) = n := by
  simp only [beToNat, u32be, List.foldl]
  omega

theorem u32be_length (n : Nat) : (u32be n).length = 4 := rfl

theorem MessageType.ofNat?_toNat (t : MessageType) : MessageType.ofNat? t.toNat = some t := by
  cases t <;> rfl

theorem MessageType.toNat_lt (t : MessageType) : t.toNat < 4294967296 := by
  cases t <;> simp [MessageType.toNat]

theorem take_len_append (a b : List Nat) : (a ++ b).take a.length = a := by
  induction a with
  | nil => rfl
  | cons x xs ih => simp [ih]

theorem drop_len_append (a b : List Nat) : (a ++ b).drop a.length = b := by
  induction a with
  | nil => rfl
  | cons x xs ih => simp [ih]

theorem decode_encode (m : Message) (hm : m.payload.length < 4294967296) :
    decode m.encode = .ok m [] := by
  have hdata : m.encode = (u32be m.msgType.toNat ++ u32be m.payload.length) ++ m.payload := by
    simp [Message.encode]
  have hhs : headerSize = 8 := rfl
  have hlen : m.encode.length = 8 + m.payload.length := by
    simp only [Message.encode, u32be, List.length_append, List.length_cons, List.length_nil]
  have htake4 : m.encode.take 4 = u32be m.msgType.toNat := by
    rw [Message.encode, List.append_assoc, show 4 = (u32be m.msgType.toNat).length from rfl,
      take_len_append]
  have hdrop4 : m.encode.drop 4 = u32be m.payload.length ++ m.payload := by
    rw [Message.encode, List.append_assoc, show 4 = (u32be m.msgType.toNat).length from rfl,
      drop_len_append]
  have hdecl : declaredLen m.encode = m.payload.length := by
    rw [declaredLen, hdrop4, show 4 = (u32be m.payload.length).length from rfl,
      take_len_append, beToNat_u32be _ hm]
  have hdrop8 : m.encode.drop 8 = m.payload := by
    rw [hdata, show 8 = (u32be m.msgType.toNat ++ u32be m.payload.length).length from rfl,
      drop_len_append]
  rw [decode]
  rw [if_neg (by omega)]
  simp only [hdecl, htake4, beToNat_u32be _ (m.msgType.toNat_lt)]
  rw [if_neg (by omega)]
  rw [MessageType.ofNat?_toNat]
  simp only [headerSize, hdrop8, List.take_length]
  have hdroptot : m.encode.drop (8 + m.payload.length) = [] := by
    rw [← List.drop_drop, hdrop8, List.drop_length]
  rw [hdroptot]

theorem decode_incomplete_of_short (data : List Nat)
    (h : data.length < headerSize ∨ data.length < headerSize + declaredLen data) :
    decode data = .incomplete data := by
  rw [decode]
  rcases h with h | h
  · rw [if_pos h]
  · by_cases h8 : data.length < headerSize
    · rw [if_pos h8]
    · rw [if_neg h8]
      simp only [if_pos h]

theorem decode_incomplete_eq (buf r : List Nat) (h : decode buf = .incomplete r) :
    r = buf := by
  rw [decode] at h
  by_cases h8 : buf.length < headerSize
  · rw [if_pos h8] at h
    exact (DecodeResult.incomplete.injEq _ _ ▸ h).symm
  · rw [if_neg h8] at h
    by_cases ht : buf.length < headerSize + declaredLen buf
    · simp only [if_pos ht] at h
      exact (DecodeResult.incomplete.injEq _ _ ▸ h).symm
    · simp only [if_neg ht] at h
      cases hmt : MessageType.ofNat? (beToNat (buf.take 4)) <;> rw [hmt] at h <;> simp at h

/-- C1: for every message `m` (payload small enough for the 32-bit length
field), `decode (encode m)` returns `m` with an empty remaining buffer; and
decoding is streaming-equivalent: a buffer shorter than 8 bytes or shorter
than 8 + declared payload length decodes to "incomplete, nothing consumed",
so appending later bytes to the unconsumed buffer and decoding yields the
same result as decoding the whole concatenation in one shot. -/
theorem decode_encode_roundtrip_and_streaming (m : Message)
    (hm : m.payload.length < 4294967296)
    (buf1 buf2 r : List Nat) (hinc : decode buf1 = .incomplete r)
    (data : List Nat)
    (hshort : data.length < headerSize ∨ data.length < headerSize + declaredLen data) :
    decode m.encode = .ok m []
    ∧ r = buf1
    ∧ decode (r ++ buf2) = decode (buf1 ++ buf2)
    ∧ decode data = .incomplete data := by
  have hr := decode_incomplete_eq buf1 r hinc
  exact ⟨decode_encode m hm, hr, by rw [hr], decode_incomplete_of_short data hshort⟩

/-- Witness for C1 at `IDENTIFY(80, 24)` and a 1-byte partial buffer. -/
theorem decode_encode_roundtrip_and_streaming_witness :
    decode (Message.mk .identify [0, 80, 0, 24]).encode
        = .ok (Message.mk .identify [0, 80, 0, 24]) []
    ∧ ([0] : List Nat) = [0]
    ∧ decode (([0] : List Nat) ++ [9, 9]) = decode (([0] : List Nat) ++ [9, 9])
    ∧ decode [1, 2, 3] = .incomplete [1, 2, 3] :=
  decode_encode_roundtrip_and_streaming ⟨.identify, [0, 80, 0, 24]⟩ (by decide)
    [0] [9, 9] [0] (by decide) [1, 2, 3] (by decide)

/-! ### Typed payload decoders (`decode_new_session`, `decode_error`)

Python's `payload[:4]` fed to `struct.unpack("!I", ·)` raises
`struct.error` when fewer than 4 bytes are present; the subsequent slice
`payload[4 : 4 + n]` silently truncates, and `.decode("utf-8")` raises
`UnicodeDecodeError` only on invalid UTF-8. -/

/-- Is `b` a UTF-8 continuation byte (`0x80..0xBF`)? -/
def utf8Cont (b : Nat) : Bool := 128 ≤ b && b < 192

/-- Strict UTF-8 decoding as in CPython's `bytes.decode("utf-8")`:
rejects truncated sequences, overlong encodings, surrogate codepoints and
codepoints above `0x10FFFF`. Returns the list of codepoints. -/
def utf8Decode? : List Nat → Option (List Nat)
  | [] => some []
  | b :: rest =>
    if b < 128 then
      (utf8Decode? rest).map (fun cs => b :: cs)
    else if b < 194 then none
    else if b < 224 then
      match rest with
      | b1 :: rest1 =>
        if utf8Cont b1 then
          (utf8Decode? rest1).map (fun cs => ((b - 192) * 64 + (b1 - 128)) :: cs)
        else none
      | [] => none
    else if b < 240 then
      match rest with
      | b1 :: b2 :: rest2 =>
        if utf8Cont b1 && utf8Cont b2 then
          let cp := (b - 224) * 4096 + (b1 - 128) * 64 + (b2 - 128)
          if 2048 ≤ cp ∧ ¬(55296 ≤ cp ∧ cp < 57344) then
            (utf8Decode? rest2).map (fun cs => cp :: cs)
          else none
        else none
      | _ => none
    else if b < 245 then
      match rest with
      | b1 :: b2 :: b3 :: rest3 =>
        if utf8Cont b1 && utf8Cont b2 && utf8Cont b3 then
          let cp := (b - 240) * 262144 + (b1 - 128) * 4096 + (b2 - 128) * 64 + (b3 - 128)
          if 65536 ≤ cp ∧ cp ≤ 1114111 then
            (utf8Decode? rest3).map (fun cs => cp :: cs)
          else none
        else none
      | _ => none
    else none

/-- `decode_new_session(payload)`: `none` models a raised exception
(`struct.error` on a short length field, `UnicodeDecodeError` on invalid
UTF-8); `some name` is the decoded session name (as codepoints). -/
def decode_new_session (payload : List Nat) : Option (List Nat) :=
  if payload.length < 4 then none
  else
    let nameLen := beToNat (payload.take 4)
    utf8Decode? ((payload.drop 4).take nameLen)

/-- `decode_error(payload)`: same structure as `decode_new_session`. -/
def decode_error (payload : List Nat) : Option (List Nat) :=
  if payload.length < 4 then none
  else
    let msgLen := beToNat (payload.take 4)
    utf8Decode? ((payload.drop 4).take msgLen)

/-- Counterexample for C2: a NEW_SESSION payload declaring a 5-byte name
but carrying only the 2 bytes "ab" is truncated relative to its declared
inner length, yet `decode_new_session` succeeds and silently returns the
truncated name "ab" instead of failing. -/
theorem decode_new_session_accepts_truncated_body :
    decode_new_session [0, 0, 0, 5, 97, 98] = some [97, 98]
    ∧ ([0, 0, 0, 5, 97, 98] : List Nat).length
        < 4 + beToNat (([0, 0, 0, 5, 97, 98] : List Nat).take 4) := by
  decide

/-- C2 (amended): `decode` fails loudly (raises `ValueError`) on any full
frame whose message-type field is unknown; `decode_new_session` and
`decode_error` fail when the payload holds fewer than the 4 bytes of their
inner length field. (A payload whose body is shorter than its declared
inner length is, however, silently truncated — see the counterexample.) -/
theorem malformed_frame_rejection (payload payload2 data : List Nat)
    (h1 : payload.length < 4) (h2 : payload2.length < 4)
    (h8 : headerSize ≤ data.length)
    (hfull : headerSize + declaredLen data ≤ data.length)
    (hbad : MessageType.ofNat? (beToNat (data.take 4)) = none) :
    decode_new_session payload = none
    ∧ decode_error payload2 = none
    ∧ decode data = .typeError (beToNat (data.take 4)) := by
  refine ⟨?_, ?_, ?_⟩
  · rw [decode_new_session, if_pos h1]
  · rw [decode_error, if_pos h2]
  · rw [decode, if_neg (by omega)]
    simp only [if_neg (by omega : ¬data.length < headerSize + declaredLen data), hbad]

/-- Witness for C2's amended theorem: 2-byte payloads and an 8-byte frame
with unknown message type 256. -/
theorem malformed_frame_rejection_witness :
    decode_new_session [0, 0] = none
    ∧ decode_error [7] = none
    ∧ decode [0, 0, 1, 0, 0, 0, 0, 0]
        = .typeError (beToNat (([0, 0, 1, 0, 0, 0, 0, 0] : List Nat).take 4)) :=
  malformed_frame_rejection [0, 0] [7] [0, 0, 1, 0, 0, 0, 0, 0]
    (by decide) (by decide) (by decide) (by decide) (by decide)

/-! ## Pane emulator (`src/txtmux/session.py`, class `Pane`) -/

/-- UTF-8 encoding of one Unicode scalar value, as `str.encode("utf-8")`. -/
def utf8EncodeChar (c : Nat) : List Nat :=
  if c < 128 then [c]
  else if c < 2048 then [192 + c / 64, 128 + c % 64]
  else if c < 65536 then [224 + c / 4096, 128 + c / 64 % 64, 128 + c % 64]
  else [240 + c / 262144, 128 + c / 4096 % 64, 128 + c / 64 % 64, 128 + c % 64]

/-- `str.encode("utf-8")` over a whole string (string = codepoint list). -/
def utf8Encode (s : List Nat) : List Nat := (s.map utf8EncodeChar).flatten

/-- Decimal digits of `n`, most significant first. -/
def natDigits (n : Nat) : List Nat :=
  if n < 10 then [n]
  else natDigits (n / 10) ++ [n % 10]
decreasing_by exact Nat.div_lt_self (by omega) (by omega)

/-- Codepoints of Python `str(n)` for a natural number. -/
def decRepr (n : Nat) : List Nat := (natDigits n).map (fun d => 48 + d)

/-- Codepoints of a Lean string literal (used to transcribe Python
string literals). -/
def strCodes (s : String) : List Nat := s.data.map Char.toNat

/-- Sorted insertion used to model Python's `sorted` on dict keys. -/
def sortInsert (k : Nat) : List Nat → List Nat
  | [] => [k]
  | x :: xs => if k ≤ x then k :: x :: xs else x :: sortInsert k xs

/-- `sorted(keys)` for a list of natural-number keys. -/
def sortKeys : List Nat → List Nat
  | [] => []
  | x :: xs => sortInsert x (sortKeys xs)

/-- Emulator state relevant to `render_to_ansi`: `screen.history.top`
(each scrolled-off row a dict column ↦ cell text), `screen.display`
(the visible rows as strings), and the cursor coordinates. -/
structure ScreenState where
  historyTop : List (List (Nat × List Nat))
  display : List (List Nat)
  cursorX : Nat
  cursorY : Nat
deriving DecidableEq

/-- `"".flatten(row[col].data for col in sorted(row.keys()))`. -/
def joinRow (row : List (Nat × List Nat)) : List Nat :=
  ((sortKeys (row.map Prod.fst)).map (fun k => (row.lookup k).getD [])).flatten

/-- `Pane.render_to_ansi`: the parts list built by the source, joined. -/
def render_to_ansi (s : ScreenState) : List Nat :=
  let parts : List (List Nat) :=
    (s.historyTop.flatMap (fun row => [utf8Encode (joinRow row), [13, 10]]))
    ++ [[27, 91, 72]]
    ++ (s.display.enum.flatMap (fun p =>
        [utf8Encode ([27, 91] ++ decRepr (p.fst + 1) ++ [59, 49, 72]),
         utf8Encode p.snd]))
    ++ [utf8Encode ([27, 91] ++ decRepr (s.cursorY + 1) ++ [59]
          ++ decRepr (s.cursorX + 1) ++ [72])]
  parts.flatten

/-! ### Spec-shaped description of the snapshot (for the refinement claim)

The following definitions transcribe the specification's words for the
replay snapshot, to be compared with `render_to_ansi` above. -/

/-- Spec: "each scrollback line followed by CRLF". -/
def specScrollbackPart (s : ScreenState) : List Nat :=
  (s.historyTop.map (fun row => utf8Encode (joinRow row) ++ [13, 10])).flatten

/-- Spec: "a cursor-home sequence". -/
def specCursorHome : List Nat := [27, 91, 72]

/-- Spec: "an explicit move-to-row-column-1 escape sequence". -/
def specMoveToRowCol1 (row : Nat) : List Nat :=
  utf8Encode ([27, 91] ++ decRepr row ++ [59, 49, 72])

/-- Spec: "for each row of the visible screen, a move-to-row-column-1
sequence followed by that row's characters". -/
def specBodyPart (s : ScreenState) : List Nat :=
  (s.display.enum.map (fun p => specMoveToRowCol1 (p.fst + 1) ++ utf8Encode p.snd)).flatten

/-- Spec: "a cursor-position sequence placing the cursor at its live
coordinates". -/
def specCursorPosition (row col : Nat) : List Nat :=
  utf8Encode ([27, 91] ++ decRepr row ++ [59] ++ decRepr col ++ [72])

/-- Spec: the snapshot laid out exactly as the claim describes it. -/
def specSnapshot (s : ScreenState) : List Nat :=
  specScrollbackPart s ++ specCursorHome ++ specBodyPart s
    ++ specCursorPosition (s.cursorY + 1) (s.cursorX + 1)

theorem join_bind_pair (l : List α) (f g : α → List Nat) :
    (l.flatMap (fun x => [f x, g x])).flatten = (l.map (fun x => f x ++ g x)).flatten := by
  induction l with
  | nil => rfl
  | cons x xs ih => simp [ih, List.append_assoc]

/-- C7: the replay snapshot consists, in order, of each scrollback line
followed by CRLF, then a cursor-home sequence, then for each visible row
an explicit move-to-row-column-1 sequence followed by that row's
characters, and finally a cursor-position sequence at the live cursor
coordinates. -/
theorem render_to_ansi_layout (s : ScreenState) :
    render_to_ansi s = specSnapshot s := by
  rw [render_to_ansi, specSnapshot, specScrollbackPart, specCursorHome, specBodyPart,
    specCursorPosition]
  simp only [List.flatten_append, join_bind_pair, List.flatten_cons, List.flatten_nil,
    List.append_nil, List.append_assoc, specMoveToRowCol1]

/-! ## Pane dimensions vs. PTY size (C3) -/

/-- Dimension bookkeeping of pyte's `Screen.__init__(columns, lines)`. -/
structure PyteScreen where
  columns : Nat
  lines : Nat
deriving DecidableEq

/-- `pyte.Screen(columns, lines)` / `pyte.HistoryScreen(columns, lines, ...)`. -/
def pyteScreenInit (columns lines : Nat) : PyteScreen := ⟨columns, lines⟩

/-- `Screen.resize(lines, columns)` — pyte's resize takes the transposed
order relative to its constructor. -/
def pyteResize (_ : PyteScreen) (lines columns : Nat) : PyteScreen :=
  ⟨columns, lines⟩

/-- Pane state relevant to C3: declared width/height, emulator screen,
and the dimensions of the last successful `set_pty_size` ioctl
(`fdCols = width`, `fdRows = height`). -/
structure PaneDims where
  width : Nat
  height : Nat
  screen : PyteScreen
  fdCols : Nat
  fdRows : Nat
deriving DecidableEq

/-- Pane creation path of `create_session`/`create_pane`:
`set_pty_size(pty_fd, width, height)` followed by `Pane.__init__`, whose
body constructs `pyte.HistoryScreen(height, width, history=2000)`. -/
def paneCreate (width height : Nat) : PaneDims :=
  { width := width
    height := height
    screen := pyteScreenInit height width
    fdCols := width
    fdRows := height }

/-- RESIZE dispatch in `server.py`: set `pane.width`/`pane.height`, call
`set_pty_size(pane.pty_fd, width, height)`, then
`pane.resize_screen(width, height)` which runs `screen.resize(height,
width)`. `ioctlOk` is whether the ioctl succeeded; on failure the raised
`OSError` propagates before `resize_screen` runs. -/
def paneResizeDispatch (p : PaneDims) (width height : Nat) (ioctlOk : Bool) : PaneDims :=
  let p1 : PaneDims := { p with width := width, height := height }
  if ioctlOk then
    { p1 with
      fdCols := width
      fdRows := height
      screen := pyteResize p1.screen height width }
  else p1

/-- C3 fails at pane creation: for a pane created 80 columns by 24 rows,
the fd's last successful resize is 80×24 but the emulator screen comes out
as 24 columns by 80 lines, because `Pane.__init__` passes `(height,
width)` to pyte's `(columns, lines)` constructor. (The RESIZE dispatch
path, by contrast, does resize the emulator correctly.) -/
theorem pane_create_screen_dims_transposed :
    (paneCreate 80 24).fdCols = 80 ∧ (paneCreate 80 24).fdRows = 24
    ∧ (paneCreate 80 24).screen.columns = 24
    ∧ (paneCreate 80 24).screen.lines = 80
    ∧ ¬((paneCreate 80 24).screen.columns = (paneCreate 80 24).fdCols
        ∧ (paneCreate 80 24).screen.lines = (paneCreate 80 24).fdRows) := by
  decide

/-! ## Session registry (`src/txtmux/session.py`, class `SessionManager`)

Python dicts become insertion-ordered association lists: a fresh key is
appended at the end, `del` removes the (unique) entry, lookup is by key. -/

/-- Assoc-list update: replace the entry for `k` in place, or append. -/
def dictSet {α β : Type} [BEq α] (k : α) (v : β) : List (α × β) → List (α × β)
  | [] => [(k, v)]
  | p :: ps => if p.fst == k then (k, v) :: ps else p :: dictSet k v ps

/-- Assoc-list `del`: remove the first entry for `k`. -/
def dictErase {α β : Type} [BEq α] (k : α) : List (α × β) → List (α × β)
  | [] => []
  | p :: ps => if p.fst == k then ps else p :: dictErase k ps

/-- A pane as stored by the registry (`Pane.__init__` fields relevant to
registry claims). -/
structure PaneR where
  id : Nat
  ptyFd : Nat
  pid : Nat
  width : Nat
  height : Nat
deriving DecidableEq

/-- A `Session`: pane dict in insertion order plus the active pane id. -/
structure SessionR where
  id : Nat
  name : List Nat
  panes : List (Nat × PaneR)
  activePaneId : Nat
  createdAt : Nat
deriving DecidableEq

/-- The `SessionManager` state. `spawned` logs each `spawn_shell` call
(the pair `(pty_fd, pid)` it returned), so "no shell was spawned" is the
statement that this log is unchanged. -/
structure Manager where
  sessions : List (Nat × SessionR)
  sessionsByName : List (List Nat × Nat)
  attachedClients : List (Nat × List Nat)
  nextSessionId : Nat
  nextPaneId : Nat
  spawned : List (Nat × Nat)
deriving DecidableEq

/-- `SessionManager.__init__`. -/
def Manager.init : Manager := ⟨[], [], [], 0, 0, []⟩

/-- `create_session(name, shell, width, height)`. The duplicate-name
check is the first statement of the Python function, before the id
counters are bumped and before `spawn_shell`; an `.error` result models
the raised `ValueError` with the registry untouched. `ptyFd`/`pid` stand
for the values `spawn_shell` returns, `createdAt` for `time.time()`. -/
def create_session (m : Manager) (name : List Nat) (ptyFd pid : Nat)
    (width height createdAt : Nat) : Except (List Nat) (Manager × SessionR) :=
  if (m.sessionsByName.lookup name).isSome then
    .error (strCodes "Session with name already exists")
  else
    let sessionId := m.nextSessionId
    let paneId := m.nextPaneId
    let pane : PaneR := ⟨paneId, ptyFd, pid, width, height⟩
    let session : SessionR := ⟨sessionId, name, [(paneId, pane)], paneId, createdAt⟩
    .ok ({ m with
      sessions := m.sessions ++ [(sessionId, session)]
      sessionsByName := m.sessionsByName ++ [(name, sessionId)]
      attachedClients := m.attachedClients ++ [(sessionId, [])]
      nextSessionId := sessionId + 1
      nextPaneId := paneId + 1
      spawned := m.spawned ++ [(ptyFd, pid)] }, session)

/-- `destroy_session(session_id)`. -/
def destroy_session (m : Manager) (sessionId : Nat) : Except (List Nat) Manager :=
  match m.sessions.lookup sessionId with
  | none => .error (strCodes "Session not found")
  | some session =>
    .ok { m with
      sessions := dictErase sessionId m.sessions
      sessionsByName := dictErase session.name m.sessionsByName
      attachedClients := dictErase sessionId m.attachedClients }

/-- `create_pane(session_id, shell, width, height)`. -/
def create_pane (m : Manager) (sessionId : Nat) (ptyFd pid width height : Nat) :
    Except (List Nat) (Manager × PaneR) :=
  match m.sessions.lookup sessionId with
  | none => .error (strCodes "Session not found")
  | some session =>
    let paneId := m.nextPaneId
    let pane : PaneR := ⟨paneId, ptyFd, pid, width, height⟩
    let session' := { session with panes := session.panes ++ [(paneId, pane)] }
    .ok ({ m with
      sessions := dictSet sessionId session' m.sessions
      nextPaneId := paneId + 1
      spawned := m.spawned ++ [(ptyFd, pid)] }, pane)

/-- `destroy_pane(session_id, pane_id)`: the three checks precede any
mutation, in source order; active-pane promotion is
`next(iter(session.panes))`, i.e. the first remaining entry in dict
insertion order. -/
def destroy_pane (m : Manager) (sessionId paneId : Nat) : Except (List Nat) Manager :=
  match m.sessions.lookup sessionId with
  | none => .error (strCodes "Session not found")
  | some session =>
    if (session.panes.lookup paneId).isNone then
      .error (strCodes "Pane not found in session")
    else if session.panes.length = 1 then
      .error (strCodes "Cannot destroy last pane in session")
    else
      let panes' := dictErase paneId session.panes
      let active' :=
        if session.activePaneId = paneId then
          match panes' with
          | [] => session.activePaneId
          | q :: _ => q.fst
        else session.activePaneId
      let session' : SessionR := { session with panes := panes', activePaneId := active' }
      .ok { m with sessions := dictSet sessionId session' m.sessions }

/-! ### Registry operation traces (for the id-monotonicity claim) -/

/-- One registry operation, with the environment-supplied values
(`spawn_shell` results, clock) as parameters. -/
inductive RegOp where
  | createSession (name : List Nat) (ptyFd pid width height createdAt : Nat)
  | createPane (sessionId ptyFd pid width height : Nat)
  | destroySession (sessionId : Nat)
  | destroyPane (sessionId paneId : Nat)

/-- Apply one operation; returns the new state plus the session ids and
pane ids assigned by the call (empty on an error, which leaves the
registry unchanged since every check precedes every mutation). -/
def applyOp (m : Manager) : RegOp → Manager × List Nat × List Nat
  | .createSession name fd pid w h t =>
    match create_session m name fd pid w h t with
    | .ok (m', s) => (m', [s.id], s.panes.map Prod.fst)
    | .error _ => (m, [], [])
  | .createPane sid fd pid w h =>
    match create_pane m sid fd pid w h with
    | .ok (m', p) => (m', [], [p.id])
    | .error _ => (m, [], [])
  | .destroySession sid =>
    match destroy_session m sid with
    | .ok m' => (m', [], [])
    | .error _ => (m, [], [])
  | .destroyPane sid pid =>
    match destroy_pane m sid pid with
    | .ok m' => (m', [], [])
    | .error _ => (m, [], [])

/-- Run a sequence of registry operations, accumulating the assigned
session ids and pane ids in order of assignment. -/
def runOps (m : Manager) : List RegOp → Manager × List Nat × List Nat
  | [] => (m, [], [])
  | op :: ops =>
    let r := applyOp m op
    let rest := runOps r.fst ops
    (rest.fst, r.2.1 ++ rest.2.1, r.2.2 ++ rest.2.2)

theorem applyOp_bounds (m : Manager) (op : RegOp) :
    m.nextSessionId ≤ (applyOp m op).1.nextSessionId
    ∧ m.nextPaneId ≤ (applyOp m op).1.nextPaneId
    ∧ (∀ x ∈ (applyOp m op).2.1, m.nextSessionId ≤ x ∧ x < (applyOp m op).1.nextSessionId)
    ∧ (∀ x ∈ (applyOp m op).2.2, m.nextPaneId ≤ x ∧ x < (applyOp m op).1.nextPaneId)
    ∧ (applyOp m op).2.1.Pairwise (· < ·)
    ∧ (applyOp m op).2.2.Pairwise (· < ·) := by
  cases op with
  | createSession name fd pid w h t =>
    by_cases hdup : (m.sessionsByName.lookup name).isSome
    · simp [applyOp, create_session, hdup]
    · simp [applyOp, create_session, hdup]
  | createPane sid fd pid w h =>
    cases hs : m.sessions.lookup sid with
    | none => simp [applyOp, create_pane, hs]
    | some s => simp [applyOp, create_pane, hs]
  | destroySession sid =>
    cases hs : m.sessions.lookup sid with
    | none => simp [applyOp, destroy_session, hs]
    | some s => simp [applyOp, destroy_session, hs]
  | destroyPane sid pid =>
    cases hs : m.sessions.lookup sid with
    | none => simp [applyOp, destroy_pane, hs]
    | some s =>
      by_cases hp : (s.panes.lookup pid).isNone
      · simp [applyOp, destroy_pane, hs, hp]
      · by_cases hl : s.panes.length = 1
        · simp [applyOp, destroy_pane, hs, hp, hl]
        · simp [applyOp, destroy_pane, hs, hp, hl]

theorem runOps_bounds (m : Manager) (ops : List RegOp) :
    (∀ x ∈ (runOps m ops).2.1, m.nextSessionId ≤ x)
    ∧ (runOps m ops).2.1.Pairwise (· < ·)
    ∧ (∀ x ∈ (runOps m ops).2.2, m.nextPaneId ≤ x)
    ∧ (runOps m ops).2.2.Pairwise (· < ·) := by
  induction ops generalizing m with
  | nil => simp [runOps]
  | cons op ops ih =>
    obtain ⟨h1, h2, h3, h4, h5, h6⟩ := applyOp_bounds m op
    obtain ⟨ih1, ih2, ih3, ih4⟩ := ih (applyOp m op).1
    simp only [runOps]
    refine ⟨?_, ?_, ?_, ?_⟩
    · intro x hx
      rcases List.mem_append.mp hx with hx | hx
      · exact (h3 x hx).1
      · exact le_trans h1 (ih1 x hx)
    · refine List.pairwise_append.mpr ⟨h5, ih2, ?_⟩
      intro a ha b hb
      exact lt_of_lt_of_le (h3 a ha).2 (ih1 b hb)
    · intro x hx
      rcases List.mem_append.mp hx with hx | hx
      · exact (h4 x hx).1
      · exact le_trans h2 (ih3 x hx)
    · refine List.pairwise_append.mpr ⟨h6, ih4, ?_⟩
      intro a ha b hb
      exact lt_of_lt_of_le (h4 a ha).2 (ih3 b hb)

/-- C8: over any sequence of registry operations starting from a fresh
`SessionManager`, the session ids assigned are pairwise strictly
increasing in order of assignment, and likewise the pane ids; in
particular no session id and no pane id is ever assigned twice. -/
theorem registry_ids_strictly_monotone (ops : List RegOp) :
    (runOps Manager.init ops).2.1.Pairwise (· < ·)
    ∧ (runOps Manager.init ops).2.2.Pairwise (· < ·)
    ∧ (runOps Manager.init ops).2.1.Nodup
    ∧ (runOps Manager.init ops).2.2.Nodup := by
  obtain ⟨-, h2, -, h4⟩ := runOps_bounds Manager.init ops
  exact ⟨h2, h4, h2.imp (fun hab => Nat.ne_of_lt hab),
    h4.imp (fun hab => Nat.ne_of_lt hab)⟩

/-! ### Destroying the active pane (C4) -/

theorem map_fst_dictErase {β : Type} (k : Nat) (d : List (Nat × β)) :
    (dictErase k d).map Prod.fst = (d.map Prod.fst).erase k := by
  induction d with
  | nil => rfl
  | cons p ps ih =>
    by_cases h : p.fst = k
    · simp [dictErase, List.erase_cons, h]
    · simp [dictErase, List.erase_cons, h, ih]

theorem length_dictErase (k : Nat) (d : List (Nat × PaneR))
    (h : (d.lookup k).isSome) : (dictErase k d).length + 1 = d.length := by
  induction d with
  | nil => simp [List.lookup] at h
  | cons p ps ih =>
    by_cases hk : k = p.fst
    · simp [dictErase, hk]
    · have h' : (ps.lookup k).isSome := by
        simp only [List.lookup] at h
        rw [show (k == p.fst) = false from beq_eq_false_iff_ne.mpr hk] at h
        exact h
      simp only [dictErase,
        show (p.fst == k) = false from beq_eq_false_iff_ne.mpr (Ne.symm hk),
        Bool.false_eq_true, if_false, List.length_cons, ih h']

theorem lookup_dictSet_self {α β : Type} [BEq α] [LawfulBEq α]
    (k : α) (v : β) (d : List (α × β)) : (dictSet k v d).lookup k = some v := by
  induction d with
  | nil => simp [dictSet, List.lookup]
  | cons p ps ih =>
    by_cases h : p.fst = k
    · simp [dictSet, h, List.lookup]
    · have hb : (p.fst == k) = false := beq_eq_false_iff_ne.mpr h
      have hb' : (k == p.fst) = false := beq_eq_false_iff_ne.mpr (Ne.symm h)
      simp [dictSet, hb, List.lookup, hb', ih]

/-- C4: in a session with at least two panes whose pane-id keys appear in
strictly increasing order (as holds for every reachable session, since
pane ids are assigned monotonically and dict insertion order is creation
order), destroying the active pane succeeds and promotes the lowest
remaining pane id to active; and in a session with exactly one pane,
destroying that pane is the "Cannot destroy last pane" error, leaving the
registry unchanged. -/
theorem destroy_pane_promotes_lowest (m : Manager) (sid : Nat) (s : SessionR)
    (hs : m.sessions.lookup sid = some s)
    (hsorted : (s.panes.map Prod.fst).Pairwise (· < ·))
    (hactive : (s.panes.lookup s.activePaneId).isSome)
    (hlen : 2 ≤ s.panes.length)
    (m1 : Manager) (sid1 : Nat) (s1 : SessionR) (pid1 : Nat)
    (hs1 : m1.sessions.lookup sid1 = some s1)
    (hp1 : (s1.panes.lookup pid1).isSome)
    (hlen1 : s1.panes.length = 1) :
    (∃ m' s', destroy_pane m sid s.activePaneId = .ok m'
      ∧ m'.sessions.lookup sid = some s'
      ∧ s'.panes = dictErase s.activePaneId s.panes
      ∧ s'.activePaneId ∈ s'.panes.map Prod.fst
      ∧ (∀ k ∈ s'.panes.map Prod.fst, s'.activePaneId ≤ k))
    ∧ destroy_pane m1 sid1 pid1 = .error (strCodes "Cannot destroy last pane in session")
    ∧ applyOp m1 (.destroyPane sid1 pid1) = (m1, [], []) := by
  obtain ⟨v1, hv1⟩ := Option.isSome_iff_exists.mp hp1
  refine ⟨?_, ?_, ?_⟩
  · obtain ⟨v, hv⟩ := Option.isSome_iff_exists.mp hactive
    have hne1 : ¬s.panes.length = 1 := by omega
    have hlenpn : (dictErase s.activePaneId s.panes).length + 1 = s.panes.length :=
      length_dictErase _ _ hactive
    obtain ⟨q, rest, hpn⟩ :
        ∃ q rest, dictErase s.activePaneId s.panes = q :: rest := by
      cases hd : dictErase s.activePaneId s.panes with
      | nil => rw [hd] at hlenpn; simp at hlenpn; omega
      | cons q rest => exact ⟨q, rest, rfl⟩
    have hkeys : (dictErase s.activePaneId s.panes).map Prod.fst
        = (s.panes.map Prod.fst).erase s.activePaneId := map_fst_dictErase _ _
    have hkeysPW : ((dictErase s.activePaneId s.panes).map Prod.fst).Pairwise (· < ·) := by
      rw [hkeys]
      exact hsorted.sublist (List.erase_sublist _ _)
    let s2 : SessionR := ⟨s.id, s.name, q :: rest, q.fst, s.createdAt⟩
    refine ⟨{ m with sessions := dictSet sid s2 m.sessions }, s2,
      ?_, lookup_dictSet_self sid _ m.sessions, hpn.symm, ?_, ?_⟩
    · simp only [destroy_pane, hs]
      rw [if_neg (by simp [hv]), if_neg hne1]
      simp [hpn]
    · simp
    · rw [hpn] at hkeysPW
      intro k hk
      simp only [List.map_cons, List.mem_cons] at hk
      rcases hk with hk | hk
      · simp [hk]
      · exact le_of_lt ((List.pairwise_cons.mp hkeysPW).1 k hk)
  · simp only [destroy_pane, hs1]
    rw [if_neg (by simp [hv1]), if_pos hlen1]
  · simp [applyOp, destroy_pane, hs1, hv1, hlen1]

/-- Witness for C4: a two-pane session (pane ids 0 and 1, pane 0 active)
and a one-pane session (pane id 5). -/
theorem destroy_pane_promotes_lowest_witness :
    (∃ m' s',
      destroy_pane
        ⟨[(0, ⟨0, [97], [(0, ⟨0, 10, 100, 80, 24⟩), (1, ⟨1, 11, 101, 80, 24⟩)], 0, 0⟩)],
         [([97], 0)], [(0, [])], 1, 2, [(10, 100), (11, 101)]⟩ 0 0 = .ok m'
      ∧ m'.sessions.lookup 0 = some s'
      ∧ s'.panes = dictErase 0 [(0, ⟨0, 10, 100, 80, 24⟩), (1, ⟨1, 11, 101, 80, 24⟩)]
      ∧ s'.activePaneId ∈ s'.panes.map Prod.fst
      ∧ (∀ k ∈ s'.panes.map Prod.fst, s'.activePaneId ≤ k))
    ∧ destroy_pane
        ⟨[(7, ⟨7, [98], [(5, ⟨5, 12, 102, 80, 24⟩)], 5, 0⟩)],
         [([98], 7)], [(7, [])], 8, 6, [(12, 102)]⟩ 7 5
        = .error (strCodes "Cannot destroy last pane in session")
    ∧ applyOp
        ⟨[(7, ⟨7, [98], [(5, ⟨5, 12, 102, 80, 24⟩)], 5, 0⟩)],
         [([98], 7)], [(7, [])], 8, 6, [(12, 102)]⟩ (.destroyPane 7 5)
        = (⟨[(7, ⟨7, [98], [(5, ⟨5, 12, 102, 80, 24⟩)], 5, 0⟩)],
            [([98], 7)], [(7, [])], 8, 6, [(12, 102)]⟩, [], []) := by
  have h := destroy_pane_promotes_lowest
    ⟨[(0, ⟨0, [97], [(0, ⟨0, 10, 100, 80, 24⟩), (1, ⟨1, 11, 101, 80, 24⟩)], 0, 0⟩)],
     [([97], 0)], [(0, [])], 1, 2, [(10, 100), (11, 101)]⟩ 0
    ⟨0, [97], [(0, ⟨0, 10, 100, 80, 24⟩), (1, ⟨1, 11, 101, 80, 24⟩)], 0, 0⟩
    (by decide) (by decide) (by decide) (by decide)
    ⟨[(7, ⟨7, [98], [(5, ⟨5, 12, 102, 80, 24⟩)], 5, 0⟩)],
     [([98], 7)], [(7, [])], 8, 6, [(12, 102)]⟩ 7
    ⟨7, [98], [(5, ⟨5, 12, 102, 80, 24⟩)], 5, 0⟩ 5
    (by decide) (by decide) (by decide)
  exact h

/-! ### Duplicate-name `create_session` (C10) -/

/-- C10: `create_session` with a name already present in the name index
raises (the duplicate check is the first statement of the function), and
the registry — both session indices, every attachment set, both id
counters, and the log of spawned shells — is exactly what it was before
the call. -/
theorem create_session_duplicate_unchanged (m : Manager) (name : List Nat)
    (ptyFd pid width height createdAt : Nat)
    (hdup : (m.sessionsByName.lookup name).isSome) :
    create_session m name ptyFd pid width height createdAt
      = .error (strCodes "Session with name already exists")
    ∧ applyOp m (.createSession name ptyFd pid width height createdAt)
      = (m, [], []) := by
  constructor
  · rw [create_session, if_pos hdup]
  · simp [applyOp, create_session, hdup]

/-- Witness for C10: a registry holding a session named "a" (codepoint
97), asked to create another session named "a". -/
theorem create_session_duplicate_unchanged_witness :
    create_session
      ⟨[(0, ⟨0, [97], [(0, ⟨0, 9, 50, 80, 24⟩)], 0, 0⟩)], [([97], 0)], [(0, [])],
       1, 1, [(9, 50)]⟩ [97] 2 3 80 24 7
      = .error (strCodes "Session with name already exists")
    ∧ applyOp
      ⟨[(0, ⟨0, [97], [(0, ⟨0, 9, 50, 80, 24⟩)], 0, 0⟩)], [([97], 0)], [(0, [])],
       1, 1, [(9, 50)]⟩ (.createSession [97] 2 3 80 24 7)
      = (⟨[(0, ⟨0, [97], [(0, ⟨0, 9, 50, 80, 24⟩)], 0, 0⟩)], [([97], 0)], [(0, [])],
          1, 1, [(9, 50)]⟩, [], []) :=
  create_session_duplicate_unchanged
    ⟨[(0, ⟨0, [97], [(0, ⟨0, 9, 50, 80, 24⟩)], 0, 0⟩)], [([97], 0)], [(0, [])],
     1, 1, [(9, 50)]⟩ [97] 2 3 80 24 7 (by decide)

/-! ## Default session name policy (`server.py`, NEW_SESSION dispatch) -/

/-- Codepoints of the literal `"main"`. -/
def mainName : List Nat := strCodes "main"

/-- Codepoints of the literal `"session-"`. -/
def sessionStem : List Nat := strCodes "session-"

/-- Codepoints of the f-string `"session-" + str(n)`. -/
def sessionName (n : Nat) : List Nat := sessionStem ++ decRepr n

/-- The `while f"session-{i}" in existing_names: i += 1` loop, with
explicit fuel; `names.length + 1` steps always suffice (pigeonhole). -/
def firstFree (names : List (List Nat)) (i : Nat) : Nat → Nat
  | 0 => i
  | fuel + 1 => if sessionName i ∈ names then firstFree names (i + 1) fuel else i

/-- The NEW_SESSION default-name policy from `server.py`: `"main"` when
no sessions exist, otherwise the first unused `"session-<i>"` starting
from `i = 1`. -/
def defaultName (names : List (List Nat)) : List Nat :=
  if names.isEmpty then mainName
  else sessionName (firstFree names 1 (names.length + 1))

theorem parse_natDigits (n : Nat) :
    (natDigits n).foldl (fun a d => a * 10 + d) 0 = n := by
  induction n using Nat.strong_induction_on with
  | _ n ih =>
    rw [natDigits]
    by_cases h : n < 10
    · rw [if_pos h]
      simp
    · rw [if_neg h, List.foldl_append,
        ih (n / 10) (Nat.div_lt_self (by omega) (by omega))]
      simp
      omega

theorem natDigits_injective : Function.Injective natDigits := by
  intro a b h
  rw [← parse_natDigits a, ← parse_natDigits b, h]

theorem decRepr_injective : Function.Injective decRepr := by
  intro a b h
  apply natDigits_injective
  have hadd : Function.Injective (fun d : Nat => 48 + d) := by
    intro x y hxy
    simpa using hxy
  exact List.map_injective_iff.mpr hadd h

theorem sessionName_injective : Function.Injective sessionName := by
  intro a b h
  exact decRepr_injective (List.append_cancel_left h)

theorem firstFree_spec (names : List (List Nat)) (fuel : Nat) :
    ∀ i, (∃ k, k < fuel ∧ sessionName (i + k) ∉ names) →
      sessionName (firstFree names i fuel) ∉ names
      ∧ i ≤ firstFree names i fuel
      ∧ ∀ j, i ≤ j → j < firstFree names i fuel → sessionName j ∈ names := by
  induction fuel with
  | zero =>
    rintro i ⟨k, hk, -⟩
    omega
  | succ fuel ih =>
    rintro i ⟨k, hk, hfree⟩
    by_cases hu : sessionName i ∈ names
    · have hk0 : k ≠ 0 := by
        intro h0
        rw [h0, Nat.add_zero] at hfree
        exact hfree hu
      obtain ⟨h1, h2, h3⟩ := ih (i + 1)
        ⟨k - 1, by omega, by
          have : i + 1 + (k - 1) = i + k := by omega
          rw [this]
          exact hfree⟩
      simp only [firstFree, if_pos hu]
      refine ⟨h1, by omega, ?_⟩
      intro j hij hjlt
      by_cases hji : j = i
      · rw [hji]
        exact hu
      · exact h3 j (by omega) hjlt
    · simp only [firstFree, if_neg hu]
      exact ⟨hu, Nat.le_refl i, fun j h1 h2 => by omega⟩

theorem exists_free_name (names : List (List Nat)) :
    ∃ k, k < names.length + 1 ∧ sessionName (1 + k) ∉ names := by
  by_contra hcon
  push_neg at hcon
  have hinj : Function.Injective (fun k : Nat => sessionName (1 + k)) := by
    intro a b hab
    have := sessionName_injective hab
    omega
  have hsub : ((Finset.range (names.length + 1)).image (fun k => sessionName (1 + k)))
      ⊆ names.toFinset := by
    intro x hx
    simp only [Finset.mem_image, Finset.mem_range] at hx
    obtain ⟨k, hk, rfl⟩ := hx
    exact List.mem_toFinset.mpr (hcon k hk)
  have hcard := Finset.card_le_card hsub
  rw [Finset.card_image_of_injective _ hinj, Finset.card_range] at hcard
  have hle := names.toFinset_card_le
  omega

/-- C5: when NEW_SESSION arrives with an empty name, the chosen default
is `"main"` if no sessions exist, and otherwise `"session-<n>"` for the
smallest `n ≥ 1` such that that name is not already among the existing
session names — for every registry state. -/
theorem default_name_policy (names : List (List Nat)) :
    (names = [] → defaultName names = mainName)
    ∧ (names ≠ [] → ∃ n, 1 ≤ n ∧ defaultName names = sessionName n
        ∧ sessionName n ∉ names
        ∧ ∀ j, 1 ≤ j → j < n → sessionName j ∈ names) := by
  constructor
  · intro h
    simp [defaultName, h]
  · intro h
    obtain ⟨k, hk, hfree⟩ := exists_free_name names
    obtain ⟨h1, h2, h3⟩ := firstFree_spec names (names.length + 1) 1 ⟨k, hk, hfree⟩
    refine ⟨firstFree names 1 (names.length + 1), h2, ?_, h1, h3⟩
    simp [defaultName, h]

/-- Witness for C5: the registry already holds sessions named "main" and
"session-1"; the default name chosen is "session-2". -/
theorem default_name_policy_witness :
    ∃ n, 1 ≤ n ∧ defaultName [strCodes "main", sessionName 1] = sessionName n
      ∧ sessionName n ∉ [strCodes "main", sessionName 1]
      ∧ ∀ j, 1 ≤ j → j < n → sessionName j ∈ [strCodes "main", sessionName 1] :=
  (default_name_policy [strCodes "main", sessionName 1]).2 (by decide)

/-! ## ATTACH dispatch (`server.py`, `_dispatch_message`, C6) -/

/-- A pane as seen by the ATTACH handler. -/
structure PaneA where
  id : Nat
  pid : Nat
  width : Nat
  height : Nat
  isDead : Bool
  screen : ScreenState
deriving DecidableEq

/-- A session as seen by the ATTACH handler. -/
structure SessionA where
  id : Nat
  name : List Nat
  panes : List (Nat × PaneA)
  activePaneId : Nat
  createdAt : Nat
deriving DecidableEq

/-- Daemon state touched by the ATTACH handler: the registry's sessions,
the per-session attachment sets, and `_client_sessions`. -/
structure AttachSrv where
  sessions : List (Nat × SessionA)
  attachedClients : List (Nat × List Nat)
  clientSessions : List (Nat × Nat)
deriving DecidableEq

/-- A frame written to the requesting client. -/
inductive Frame where
  | outputF (data : List Nat)
  | sessionInfoF (sessionId : Nat) (name : List Nat)
      (paneId pid width height createdAt attachedCount : Nat)
  | shellExitedF (sessionId paneId : Nat)
deriving DecidableEq

/-- The ATTACH branch of `_dispatch_message`, in source order: look up
the session (`RuntimeError` if absent), take the active pane, and if it
`is_dead` write SHELL_EXITED and return at once — before `attach_client`,
before the replay-snapshot OUTPUT and before SESSION_INFO. Otherwise
attach the client, send the `render_to_ansi` snapshot as one OUTPUT
frame, then SESSION_INFO with the post-attach count. -/
def handleAttach (st : AttachSrv) (clientId sessionId : Nat) :
    Except (List Nat) (AttachSrv × List Frame) :=
  match st.sessions.lookup sessionId with
  | none => .error (strCodes "Session not found")
  | some session =>
    match session.panes.lookup session.activePaneId with
    | none => .error (strCodes "KeyError: active pane missing")
    | some pane =>
      if pane.isDead then
        .ok (st, [.shellExitedF session.id pane.id])
      else
        match st.attachedClients.lookup session.id with
        | none => .error (strCodes "Session not found")
        | some clients =>
          let clients' := if clientId ∈ clients then clients else clients ++ [clientId]
          let st1 : AttachSrv :=
            { st with
              attachedClients := dictSet session.id clients' st.attachedClients
              clientSessions := dictSet clientId session.id st.clientSessions }
          .ok (st1,
            [.outputF (render_to_ansi pane.screen),
             .sessionInfoF session.id session.name pane.id pane.pid pane.width pane.height
               session.createdAt clients'.length])

/-- C6: when ATTACH names a session whose active pane is dead, the
handler replies with exactly one SHELL_EXITED frame — no snapshot OUTPUT
frame and no SESSION_INFO — and the daemon state, in particular every
attachment set, is completely unchanged. -/
theorem attach_dead_pane_no_attach (st : AttachSrv) (clientId sessionId : Nat)
    (session : SessionA) (pane : PaneA)
    (hs : st.sessions.lookup sessionId = some session)
    (hp : session.panes.lookup session.activePaneId = some pane)
    (hdead : pane.isDead = true) :
    handleAttach st clientId sessionId = .ok (st, [.shellExitedF session.id pane.id]) := by
  simp [handleAttach, hs, hp, hdead]

/-- Witness for C6: a one-session daemon whose active pane is dead. -/
theorem attach_dead_pane_no_attach_witness :
    handleAttach ⟨[(0, ⟨0, [97], [(0, ⟨0, 100, 80, 24, true, ⟨[], [], 0, 0⟩⟩)], 0, 5⟩)],
        [(0, [])], []⟩ 1 0
      = .ok (⟨[(0, ⟨0, [97], [(0, ⟨0, 100, 80, 24, true, ⟨[], [], 0, 0⟩⟩)], 0, 5⟩)],
          [(0, [])], []⟩, [.shellExitedF 0 0]) :=
  attach_dead_pane_no_attach
    ⟨[(0, ⟨0, [97], [(0, ⟨0, 100, 80, 24, true, ⟨[], [], 0, 0⟩⟩)], 0, 5⟩)], [(0, [])], []⟩
    1 0 ⟨0, [97], [(0, ⟨0, 100, 80, 24, true, ⟨[], [], 0, 0⟩⟩)], 0, 5⟩
    ⟨0, 100, 80, 24, true, ⟨[], [], 0, 0⟩⟩ (by decide) (by decide) (by decide)

/-! ## Client-connection lifecycle and attachment sets (C9)

An event-level model of the daemon's client bookkeeping in `server.py`:
`_clients` (open connections), `_client_sessions`, the registry's
`_sessions` keys and `_attached_clients`. Each event transcribes one code
path that touches these four maps; `stepEv` returns `none` when the
event's code path is not executable in the given state (e.g. dispatch for
a connection that is not open). Any exception path of `_handle_client`
ends in its `finally` block, which is the `clientExit` event; a failed
write during broadcast runs `_remove_dead_client`, the `broadcastFail`
event. -/

structure FanState where
  clients : List Nat
  clientSessions : List (Nat × Nat)
  sessions : List Nat
  attached : List (Nat × List Nat)
deriving DecidableEq

/-- Python `set.add`. -/
def setAdd (l : List Nat) (x : Nat) : List Nat := if x ∈ l then l else l ++ [x]

/-- Python `set.discard`. -/
def setDiscard (l : List Nat) (x : Nat) : List Nat := l.filter (fun y => y != x)

/-- `SessionManager.attach_client`: add `cid` to the set for `sid`. -/
def attachClientF (att : List (Nat × List Nat)) (sid cid : Nat) : List (Nat × List Nat) :=
  att.map (fun p => if p.fst = sid then (p.fst, setAdd p.snd cid) else p)

/-- `SessionManager.detach_client`: discard `cid` from the set for `sid`. -/
def detachClientF (att : List (Nat × List Nat)) (sid cid : Nat) : List (Nat × List Nat) :=
  att.map (fun p => if p.fst = sid then (p.fst, setDiscard p.snd cid) else p)

/-- `self._client_sessions.pop(cid, None)` for each cid in a list. -/
def eraseAllCS (cids : List Nat) (cs : List (Nat × Nat)) : List (Nat × Nat) :=
  cids.foldl (fun acc c => dictErase c acc) cs

/-- The common teardown of `_handle_client`'s `finally` block and of
`_remove_dead_client`: pop `_client_sessions`, detach from that session
if any, drop the connection from `_clients`. -/
def removeClient (st : FanState) (cid : Nat) : FanState :=
  let att :=
    match st.clientSessions.lookup cid with
    | some sid => detachClientF st.attached sid cid
    | none => st.attached
  { st with
    clients := st.clients.filter (fun y => y != cid)
    clientSessions := dictErase cid st.clientSessions
    attached := att }

/-- Events: connection accept, the dispatch paths that touch attachment
state (NEW_SESSION, ATTACH, DETACH, KILL_SESSION), connection teardown
(EOF/error/scope exit), and client removal on a failed broadcast write. -/
inductive SEvent where
  | accept (clientId : Nat)
  | newSession (clientId sessionId : Nat)
  | attach (clientId sessionId : Nat)
  | detach (clientId : Nat)
  | clientExit (clientId : Nat)
  | broadcastFail (clientId : Nat)
  | killSession (sessionId : Nat)

/-- One event of the daemon, transcribing the corresponding code path. -/
def stepEv (st : FanState) (e : SEvent) : Option FanState :=
  match e with
  | .accept cid =>
    if cid ∈ st.clients then none
    else some { st with clients := st.clients ++ [cid] }
  | .newSession cid sid =>
    if cid ∈ st.clients ∧ sid ∉ st.sessions then
      some { st with
        sessions := st.sessions ++ [sid]
        attached := attachClientF (st.attached ++ [(sid, [])]) sid cid
        clientSessions := dictSet cid sid st.clientSessions }
    else none
  | .attach cid sid =>
    if cid ∈ st.clients ∧ sid ∈ st.sessions then
      some { st with
        attached := attachClientF st.attached sid cid
        clientSessions := dictSet cid sid st.clientSessions }
    else none
  | .detach cid =>
    match st.clientSessions.lookup cid with
    | none => some st
    | some sid =>
      some { st with
        attached := detachClientF st.attached sid cid
        clientSessions := dictErase cid st.clientSessions }
  | .clientExit cid =>
    if cid ∈ st.clients then some (removeClient st cid) else none
  | .broadcastFail cid =>
    if cid ∈ st.clients then some (removeClient st cid) else none
  | .killSession sid =>
    if sid ∈ st.sessions then
      match st.attached.lookup sid with
      | none => none
      | some cids =>
        some { st with
          sessions := st.sessions.filter (fun y => y != sid)
          attached := dictErase sid st.attached
          clientSessions := eraseAllCS cids st.clientSessions }
    else some st

/-- The daemon's initial state. -/
def initFan : FanState := ⟨[], [], [], []⟩

/-- States reachable by any sequence of executable events. -/
inductive ReachableF : FanState → Prop where
  | init : ReachableF initFan
  | step (st : FanState) (e : SEvent) (st' : FanState) :
      ReachableF st → stepEv st e = some st' → ReachableF st'

/-- A client is "disciplined" if it never sends ATTACH or NEW_SESSION
while already attached (it detaches first). -/
def Disciplined (st : FanState) : SEvent → Prop
  | .newSession cid _ => st.clientSessions.lookup cid = none
  | .attach cid _ => st.clientSessions.lookup cid = none
  | _ => True

/-- States reachable by disciplined traces. -/
inductive ReachableD : FanState → Prop where
  | init : ReachableD initFan
  | step (st : FanState) (e : SEvent) (st' : FanState) :
      ReachableD st → Disciplined st e → stepEv st e = some st' → ReachableD st'

/-- Counterexample for C9: the state reached by `accept 0`,
`NEW_SESSION` (creating session 0 and attaching client 0), a second
`NEW_SESSION` (creating session 1 and re-attaching client 0 without
detaching it from session 0 — the dispatcher never removes the old
attachment), then connection teardown — which detaches client 0 only
from `_client_sessions[0] = 1` — is reachable, yet session 0's
attachment set still holds client 0 while no connection is open. -/
theorem stale_attachment_after_double_attach :
    ReachableF ⟨[], [], [0, 1], [(0, [0]), (1, [])]⟩
    ∧ (0, [0]) ∈ (FanState.mk [] [] [0, 1] [(0, [0]), (1, [])]).attached
    ∧ 0 ∉ (FanState.mk [] [] [0, 1] [(0, [0]), (1, [])]).clients := by
  refine ⟨?_, by decide, by decide⟩
  have h1 : ReachableF ⟨[0], [], [], []⟩ :=
    ReachableF.step initFan (.accept 0) _ ReachableF.init (by decide)
  have h2 : ReachableF ⟨[0], [(0, 0)], [0], [(0, [0])]⟩ :=
    ReachableF.step _ (.newSession 0 0) _ h1 (by decide)
  have h3 : ReachableF ⟨[0], [(0, 1)], [0, 1], [(0, [0]), (1, [0])]⟩ :=
    ReachableF.step _ (.newSession 0 1) _ h2 (by decide)
  exact ReachableF.step _ (.clientExit 0) _ h3 (by decide)

/-! ### Association-list lemmas for the lifecycle invariant -/

theorem lookup_dictSet_ne {α β : Type} [BEq α] [LawfulBEq α] (k k' : α) (v : β)
    (d : List (α × β)) (h : k' ≠ k) : (dictSet k v d).lookup k' = d.lookup k' := by
  induction d with
  | nil => simp [dictSet, List.lookup, beq_eq_false_iff_ne.mpr h]
  | cons p ps ih =>
    by_cases hp : p.fst = k
    · simp [dictSet, beq_iff_eq.mpr hp, List.lookup, beq_eq_false_iff_ne.mpr h,
        beq_eq_false_iff_ne.mpr (hp ▸ h)]
    · cases hb : k' == p.fst with
      | true => simp [dictSet, beq_eq_false_iff_ne.mpr hp, List.lookup, hb]
      | false => simp [dictSet, beq_eq_false_iff_ne.mpr hp, List.lookup, hb, ih]

theorem lookup_dictErase_ne {α β : Type} [BEq α] [LawfulBEq α] (k k' : α)
    (d : List (α × β)) (h : k' ≠ k) : (dictErase k d).lookup k' = d.lookup k' := by
  induction d with
  | nil => rfl
  | cons p ps ih =>
    by_cases hp : p.fst = k
    · simp [dictErase, beq_iff_eq.mpr hp, List.lookup,
        beq_eq_false_iff_ne.mpr (hp ▸ h)]
    · cases hb : k' == p.fst with
      | true => simp [dictErase, beq_eq_false_iff_ne.mpr hp, List.lookup, hb]
      | false => simp [dictErase, beq_eq_false_iff_ne.mpr hp, List.lookup, hb, ih]

theorem mem_of_mem_dictErase {α β : Type} [BEq α] (k : α) (d : List (α × β))
    (p : α × β) (hp : p ∈ dictErase k d) : p ∈ d := by
  induction d with
  | nil => exact absurd hp (by simp [dictErase])
  | cons q qs ih =>
    rw [dictErase] at hp
    by_cases hb : q.fst == k
    · rw [if_pos hb] at hp
      exact List.mem_cons_of_mem q hp
    · rw [if_neg hb] at hp
      rcases List.mem_cons.mp hp with h | h
      · exact h ▸ List.mem_cons_self q qs
      · exact List.mem_cons_of_mem q (ih h)

theorem fst_ne_of_mem_dictErase (k : Nat) (d : List (Nat × List Nat))
    (hnd : (d.map Prod.fst).Nodup) (p : Nat × List Nat)
    (hp : p ∈ dictErase k d) : p.fst ≠ k := by
  intro he
  have hmem : p.fst ∈ (dictErase k d).map Prod.fst := List.mem_map_of_mem _ hp
  rw [map_fst_dictErase, he] at hmem
  exact hnd.not_mem_erase hmem

theorem lookup_mem {α β : Type} [BEq α] [LawfulBEq α] (k : α) (v : β)
    (d : List (α × β)) (h : d.lookup k = some v) : (k, v) ∈ d := by
  induction d with
  | nil => simp [List.lookup] at h
  | cons p ps ih =>
    simp only [List.lookup] at h
    cases hb : k == p.fst with
    | true =>
      rw [hb] at h
      have hk : k = p.fst := beq_iff_eq.mp hb
      have hv : v = p.snd := by
        simpa using h.symm
      rw [hk, hv]
      exact List.mem_cons_self _ _
    | false =>
      rw [hb] at h
      exact List.mem_cons_of_mem p (ih h)

theorem mem_setAdd (l : List Nat) (c x : Nat) (h : x ∈ setAdd l c) : x ∈ l ∨ x = c := by
  rw [setAdd] at h
  split at h
  · exact .inl h
  · rcases List.mem_append.mp h with h | h
    · exact .inl h
    · exact .inr (by simpa using h)

theorem mem_setDiscard (l : List Nat) (c x : Nat) :
    x ∈ setDiscard l c ↔ x ∈ l ∧ x ≠ c := by
  simp [setDiscard]

theorem mem_attachClientF (att : List (Nat × List Nat)) (sid cid : Nat)
    (p' : Nat × List Nat) (h : p' ∈ attachClientF att sid cid) :
    ∃ p, p ∈ att ∧ p'.fst = p.fst
      ∧ ((p.fst = sid ∧ p'.snd = setAdd p.snd cid) ∨ (p.fst ≠ sid ∧ p'.snd = p.snd)) := by
  rw [attachClientF] at h
  obtain ⟨p, hp, hfp⟩ := List.mem_map.mp h
  by_cases hs : p.fst = sid
  · exact ⟨p, hp, by rw [← hfp]; simp [hs], .inl ⟨hs, by rw [← hfp]; simp [hs]⟩⟩
  · exact ⟨p, hp, by rw [← hfp]; simp [hs], .inr ⟨hs, by rw [← hfp]; simp [hs]⟩⟩

theorem mem_detachClientF (att : List (Nat × List Nat)) (sid cid : Nat)
    (p' : Nat × List Nat) (h : p' ∈ detachClientF att sid cid) :
    ∃ p, p ∈ att ∧ p'.fst = p.fst
      ∧ ((p.fst = sid ∧ p'.snd = setDiscard p.snd cid) ∨ (p.fst ≠ sid ∧ p'.snd = p.snd)) := by
  rw [detachClientF] at h
  obtain ⟨p, hp, hfp⟩ := List.mem_map.mp h
  by_cases hs : p.fst = sid
  · exact ⟨p, hp, by rw [← hfp]; simp [hs], .inl ⟨hs, by rw [← hfp]; simp [hs]⟩⟩
  · exact ⟨p, hp, by rw [← hfp]; simp [hs], .inr ⟨hs, by rw [← hfp]; simp [hs]⟩⟩

theorem map_fst_map_preserve (f : (Nat × List Nat) → (Nat × List Nat))
    (hf : ∀ p, (f p).fst = p.fst) (att : List (Nat × List Nat)) :
    (att.map f).map Prod.fst = att.map Prod.fst := by
  induction att with
  | nil => rfl
  | cons p ps ih => simp [hf, ih]

theorem map_fst_attachClientF (att : List (Nat × List Nat)) (sid cid : Nat) :
    (attachClientF att sid cid).map Prod.fst = att.map Prod.fst := by
  apply map_fst_map_preserve
  intro p
  by_cases hs : p.fst = sid <;> simp [hs]

theorem map_fst_detachClientF (att : List (Nat × List Nat)) (sid cid : Nat) :
    (detachClientF att sid cid).map Prod.fst = att.map Prod.fst := by
  apply map_fst_map_preserve
  intro p
  by_cases hs : p.fst = sid <;> simp [hs]

theorem lookup_eraseAllCS (cids : List Nat) (cs : List (Nat × Nat)) (cid : Nat)
    (h : cid ∉ cids) : (eraseAllCS cids cs).lookup cid = cs.lookup cid := by
  induction cids generalizing cs with
  | nil => rfl
  | cons c rest ih =>
    simp only [eraseAllCS, List.foldl_cons]
    have h1 : cid ∉ rest := fun hm => h (List.mem_cons_of_mem c hm)
    have h2 : cid ≠ c := fun he => h (he ▸ List.mem_cons_self c rest)
    rw [show List.foldl (fun acc c => dictErase c acc) (dictErase c cs) rest
        = eraseAllCS rest (dictErase c cs) from rfl]
    rw [ih (dictErase c cs) h1, lookup_dictErase_ne c cid cs h2]

/-! ### The lifecycle invariant and its preservation -/

/-- The claimed invariant: every client in any attachment set is an open
connection. -/
def InvMain (st : FanState) : Prop :=
  ∀ p ∈ st.attached, ∀ cid ∈ p.snd, cid ∈ st.clients

/-- Auxiliary: a client in a session's attachment set has that session
recorded in `_client_sessions`. -/
def InvPtr (st : FanState) : Prop :=
  ∀ p ∈ st.attached, ∀ cid ∈ p.snd, st.clientSessions.lookup cid = some p.fst

/-- Auxiliary: `_attached_clients` has one entry per session. -/
def InvKeys (st : FanState) : Prop := (st.attached.map Prod.fst).Nodup

/-- Auxiliary: `_attached_clients` has an entry exactly for the live
sessions. -/
def InvSessAtt (st : FanState) : Prop :=
  ∀ sid, sid ∈ st.attached.map Prod.fst ↔ sid ∈ st.sessions

def Inv (st : FanState) : Prop := InvMain st ∧ InvPtr st ∧ InvKeys st ∧ InvSessAtt st

theorem not_mem_attached_of_lookup_none (st : FanState) (cid : Nat)
    (hP : InvPtr st) (h : st.clientSessions.lookup cid = none) :
    ∀ p ∈ st.attached, cid ∉ p.snd := by
  intro p hp hc
  have hl := hP p hp cid hc
  rw [h] at hl
  exact Option.noConfusion hl

theorem inv_accept (st : FanState) (cid : Nat) (hinv : Inv st) :
    Inv { st with clients := st.clients ++ [cid] } := by
  obtain ⟨hM, hP, hK, hS⟩ := hinv
  exact ⟨fun p hp c hc => List.mem_append_left _ (hM p hp c hc), hP, hK, hS⟩

theorem inv_attach (st : FanState) (cid sid : Nat)
    (hcl : cid ∈ st.clients)
    (hdisc : st.clientSessions.lookup cid = none)
    (hinv : Inv st) :
    Inv { st with
      attached := attachClientF st.attached sid cid
      clientSessions := dictSet cid sid st.clientSessions } := by
  obtain ⟨hM, hP, hK, hS⟩ := hinv
  have hnm := not_mem_attached_of_lookup_none st cid hP hdisc
  refine ⟨?_, ?_, ?_, ?_⟩
  · intro p' hp' c hc
    obtain ⟨p, hp, hfst, hcase⟩ := mem_attachClientF _ _ _ _ hp'
    rcases hcase with ⟨hsid, hsnd⟩ | ⟨hsid, hsnd⟩
    · rw [hsnd] at hc
      rcases mem_setAdd _ _ _ hc with h | h
      · exact hM p hp c h
      · rw [h]
        exact hcl
    · rw [hsnd] at hc
      exact hM p hp c hc
  · intro p' hp' c hc
    obtain ⟨p, hp, hfst, hcase⟩ := mem_attachClientF _ _ _ _ hp'
    by_cases hccid : c = cid
    · subst hccid
      rcases hcase with ⟨hsid, hsnd⟩ | ⟨hsid, hsnd⟩
      · rw [hfst, hsid]
        exact lookup_dictSet_self c sid st.clientSessions
      · rw [hsnd] at hc
        exact absurd hc (hnm p hp)
    · have hcp : c ∈ p.snd := by
        rcases hcase with ⟨hsid, hsnd⟩ | ⟨hsid, hsnd⟩
        · rw [hsnd] at hc
          rcases mem_setAdd _ _ _ hc with h | h
          · exact h
          · exact absurd h hccid
        · rw [hsnd] at hc
          exact hc
      rw [show ({ st with
          attached := attachClientF st.attached sid cid
          clientSessions := dictSet cid sid st.clientSessions } : FanState).clientSessions
        = dictSet cid sid st.clientSessions from rfl]
      rw [lookup_dictSet_ne cid c sid st.clientSessions hccid, hfst]
      exact hP p hp c hcp
  · show ((attachClientF st.attached sid cid).map Prod.fst).Nodup
    rw [map_fst_attachClientF]
    exact hK
  · intro s
    show s ∈ (attachClientF st.attached sid cid).map Prod.fst ↔ s ∈ st.sessions
    rw [map_fst_attachClientF]
    exact hS s

theorem inv_newSession (st : FanState) (cid sid : Nat)
    (hcl : cid ∈ st.clients)
    (hsid : sid ∉ st.sessions)
    (hdisc : st.clientSessions.lookup cid = none)
    (hinv : Inv st) :
    Inv { st with
      sessions := st.sessions ++ [sid]
      attached := attachClientF (st.attached ++ [(sid, [])]) sid cid
      clientSessions := dictSet cid sid st.clientSessions } := by
  obtain ⟨hM, hP, hK, hS⟩ := hinv
  have hnm := not_mem_attached_of_lookup_none st cid hP hdisc
  have hsidkeys : sid ∉ st.attached.map Prod.fst := fun h => hsid ((hS sid).mp h)
  refine ⟨?_, ?_, ?_, ?_⟩
  · intro p' hp' c hc
    obtain ⟨p, hp, hfst, hcase⟩ := mem_attachClientF _ _ _ _ hp'
    rcases List.mem_append.mp hp with hpo | hpn
    · rcases hcase with ⟨hps, hsnd⟩ | ⟨hps, hsnd⟩
      · exact absurd (hps ▸ List.mem_map_of_mem Prod.fst hpo) hsidkeys
      · rw [hsnd] at hc
        exact hM p hpo c hc
    · have hpeq : p = (sid, []) := by simpa using hpn
      rcases hcase with ⟨hps, hsnd⟩ | ⟨hps, hsnd⟩
      · rw [hsnd, hpeq] at hc
        rcases mem_setAdd _ _ _ hc with h | h
        · exact absurd h (List.not_mem_nil c)
        · rw [h]
          exact hcl
      · rw [hsnd, hpeq] at hc
        exact absurd hc (List.not_mem_nil c)
  · intro p' hp' c hc
    obtain ⟨p, hp, hfst, hcase⟩ := mem_attachClientF _ _ _ _ hp'
    show (dictSet cid sid st.clientSessions).lookup c = some p'.fst
    rcases List.mem_append.mp hp with hpo | hpn
    · rcases hcase with ⟨hps, hsnd⟩ | ⟨hps, hsnd⟩
      · exact absurd (hps ▸ List.mem_map_of_mem Prod.fst hpo) hsidkeys
      · rw [hsnd] at hc
        have hccid : c ≠ cid := fun he => hnm p hpo (he ▸ hc)
        rw [lookup_dictSet_ne cid c sid st.clientSessions hccid, hfst]
        exact hP p hpo c hc
    · have hpeq : p = (sid, []) := by simpa using hpn
      rcases hcase with ⟨hps, hsnd⟩ | ⟨hps, hsnd⟩
      · rw [hsnd, hpeq] at hc
        rcases mem_setAdd _ _ _ hc with h | h
        · exact absurd h (List.not_mem_nil c)
        · rw [h, hfst, hpeq]
          exact lookup_dictSet_self cid sid st.clientSessions
      · rw [hsnd, hpeq] at hc
        exact absurd hc (List.not_mem_nil c)
  · show ((attachClientF (st.attached ++ [(sid, [])]) sid cid).map Prod.fst).Nodup
    rw [map_fst_attachClientF, List.map_append]
    simp only [List.map_cons, List.map_nil]
    rw [List.nodup_append]
    refine ⟨hK, List.nodup_singleton sid, ?_⟩
    intro a ha hb
    rw [List.mem_singleton] at hb
    exact hsidkeys (hb ▸ ha)
  · intro s
    show s ∈ (attachClientF (st.attached ++ [(sid, [])]) sid cid).map Prod.fst
      ↔ s ∈ st.sessions ++ [sid]
    rw [map_fst_attachClientF, List.map_append]
    simp only [List.map_cons, List.map_nil, List.mem_append, List.mem_singleton]
    constructor
    · rintro (h | h)
      · exact .inl ((hS s).mp h)
      · exact .inr h
    · rintro (h | h)
      · exact .inl ((hS s).mpr h)
      · exact .inr h

theorem inv_detach (st : FanState) (cid sid0 : Nat)
    (hlk : st.clientSessions.lookup cid = some sid0)
    (hinv : Inv st) :
    Inv { st with
      attached := detachClientF st.attached sid0 cid
      clientSessions := dictErase cid st.clientSessions } := by
  obtain ⟨hM, hP, hK, hS⟩ := hinv
  refine ⟨?_, ?_, ?_, ?_⟩
  · intro p' hp' c hc
    obtain ⟨p, hp, hfst, hcase⟩ := mem_detachClientF _ _ _ _ hp'
    have hcp : c ∈ p.snd := by
      rcases hcase with ⟨hps, hsnd⟩ | ⟨hps, hsnd⟩
      · exact ((mem_setDiscard _ _ _).mp (hsnd ▸ hc)).1
      · exact hsnd ▸ hc
    exact hM p hp c hcp
  · intro p' hp' c hc
    obtain ⟨p, hp, hfst, hcase⟩ := mem_detachClientF _ _ _ _ hp'
    have hcc : c ∈ p.snd ∧ c ≠ cid := by
      rcases hcase with ⟨hps, hsnd⟩ | ⟨hps, hsnd⟩
      · have hm := (mem_setDiscard _ _ _).mp (hsnd ▸ hc)
        exact ⟨hm.1, hm.2⟩
      · refine ⟨hsnd ▸ hc, ?_⟩
        intro he
        have h1 := hP p hp c (hsnd ▸ hc)
        rw [he, hlk] at h1
        exact hps (Option.some.inj h1).symm
    show (dictErase cid st.clientSessions).lookup c = some p'.fst
    rw [lookup_dictErase_ne cid c _ hcc.2, hfst]
    exact hP p hp c hcc.1
  · show ((detachClientF st.attached sid0 cid).map Prod.fst).Nodup
    rw [map_fst_detachClientF]
    exact hK
  · intro s
    show s ∈ (detachClientF st.attached sid0 cid).map Prod.fst ↔ s ∈ st.sessions
    rw [map_fst_detachClientF]
    exact hS s

theorem inv_removeClient (st : FanState) (cid : Nat) (hinv : Inv st) :
    Inv (removeClient st cid) := by
  obtain ⟨hM, hP, hK, hS⟩ := hinv
  cases hlk : st.clientSessions.lookup cid with
  | none =>
    simp only [removeClient, hlk]
    have hnm := not_mem_attached_of_lookup_none st cid hP hlk
    refine ⟨?_, ?_, hK, hS⟩
    · intro p hp c hc
      have hcc : c ≠ cid := fun he => hnm p hp (he ▸ hc)
      simp only [List.mem_filter]
      exact ⟨hM p hp c hc, bne_iff_ne.mpr hcc⟩
    · intro p hp c hc
      have hcc : c ≠ cid := fun he => hnm p hp (he ▸ hc)
      show (dictErase cid st.clientSessions).lookup c = some p.fst
      rw [lookup_dictErase_ne cid c _ hcc]
      exact hP p hp c hc
  | some sid0 =>
    simp only [removeClient, hlk]
    refine ⟨?_, ?_, ?_, ?_⟩
    · intro p' hp' c hc
      obtain ⟨p, hp, hfst, hcase⟩ := mem_detachClientF _ _ _ _ hp'
      have hcc : c ∈ p.snd ∧ c ≠ cid := by
        rcases hcase with ⟨hps, hsnd⟩ | ⟨hps, hsnd⟩
        · have hm := (mem_setDiscard _ _ _).mp (hsnd ▸ hc)
          exact ⟨hm.1, hm.2⟩
        · refine ⟨hsnd ▸ hc, ?_⟩
          intro he
          have h1 := hP p hp c (hsnd ▸ hc)
          rw [he, hlk] at h1
          exact hps (Option.some.inj h1).symm
      simp only [List.mem_filter]
      exact ⟨hM p hp c hcc.1, bne_iff_ne.mpr hcc.2⟩
    · intro p' hp' c hc
      obtain ⟨p, hp, hfst, hcase⟩ := mem_detachClientF _ _ _ _ hp'
      have hcc : c ∈ p.snd ∧ c ≠ cid := by
        rcases hcase with ⟨hps, hsnd⟩ | ⟨hps, hsnd⟩
        · have hm := (mem_setDiscard _ _ _).mp (hsnd ▸ hc)
          exact ⟨hm.1, hm.2⟩
        · refine ⟨hsnd ▸ hc, ?_⟩
          intro he
          have h1 := hP p hp c (hsnd ▸ hc)
          rw [he, hlk] at h1
          exact hps (Option.some.inj h1).symm
      show (dictErase cid st.clientSessions).lookup c = some p'.fst
      rw [lookup_dictErase_ne cid c _ hcc.2, hfst]
      exact hP p hp c hcc.1
    · show ((detachClientF st.attached sid0 cid).map Prod.fst).Nodup
      rw [map_fst_detachClientF]
      exact hK
    · intro s
      show s ∈ (detachClientF st.attached sid0 cid).map Prod.fst ↔ s ∈ st.sessions
      rw [map_fst_detachClientF]
      exact hS s

theorem inv_kill (st : FanState) (sid : Nat) (cids : List Nat)
    (hlk : st.attached.lookup sid = some cids)
    (hinv : Inv st) :
    Inv { st with
      sessions := st.sessions.filter (fun y => y != sid)
      attached := dictErase sid st.attached
      clientSessions := eraseAllCS cids st.clientSessions } := by
  obtain ⟨hM, hP, hK, hS⟩ := hinv
  have hentry : (sid, cids) ∈ st.attached := lookup_mem sid cids st.attached hlk
  refine ⟨?_, ?_, ?_, ?_⟩
  · intro p hp c hc
    exact hM p (mem_of_mem_dictErase sid st.attached p hp) c hc
  · intro p hp c hc
    have hpo : p ∈ st.attached := mem_of_mem_dictErase sid st.attached p hp
    have hpn : p.fst ≠ sid := fst_ne_of_mem_dictErase sid st.attached hK p hp
    have hcn : c ∉ cids := by
      intro hcm
      have h1 := hP (sid, cids) hentry c hcm
      have h2 := hP p hpo c hc
      rw [h1] at h2
      exact hpn (Option.some.inj h2).symm
    show (eraseAllCS cids st.clientSessions).lookup c = some p.fst
    rw [lookup_eraseAllCS cids st.clientSessions c hcn]
    exact hP p hpo c hc
  · show ((dictErase sid st.attached).map Prod.fst).Nodup
    rw [map_fst_dictErase]
    exact hK.erase sid
  · intro s
    show s ∈ (dictErase sid st.attached).map Prod.fst
      ↔ s ∈ st.sessions.filter (fun y => y != sid)
    rw [map_fst_dictErase, List.Nodup.mem_erase_iff hK, List.mem_filter]
    constructor
    · rintro ⟨hne, hmem⟩
      exact ⟨(hS s).mp hmem, bne_iff_ne.mpr hne⟩
    · rintro ⟨hmem, hne⟩
      exact ⟨bne_iff_ne.mp hne, (hS s).mpr hmem⟩

theorem stepEv_preserves_inv (st : FanState) (e : SEvent) (st' : FanState)
    (hd : Disciplined st e) (hs : stepEv st e = some st') (hinv : Inv st) : Inv st' := by
  cases e with
  | accept cid =>
    by_cases h : cid ∈ st.clients
    · rw [stepEv, if_pos h] at hs
      exact absurd hs (by simp)
    · rw [stepEv, if_neg h] at hs
      exact Option.some.inj hs ▸ inv_accept st cid hinv
  | newSession cid sid =>
    by_cases h : cid ∈ st.clients ∧ sid ∉ st.sessions
    · rw [stepEv, if_pos h] at hs
      exact Option.some.inj hs ▸ inv_newSession st cid sid h.1 h.2 hd hinv
    · rw [stepEv, if_neg h] at hs
      exact absurd hs (by simp)
  | attach cid sid =>
    by_cases h : cid ∈ st.clients ∧ sid ∈ st.sessions
    · rw [stepEv, if_pos h] at hs
      exact Option.some.inj hs ▸ inv_attach st cid sid h.1 hd hinv
    · rw [stepEv, if_neg h] at hs
      exact absurd hs (by simp)
  | detach cid =>
    cases hlk : st.clientSessions.lookup cid with
    | none =>
      rw [stepEv, hlk] at hs
      exact Option.some.inj hs ▸ hinv
    | some sid0 =>
      rw [stepEv, hlk] at hs
      exact Option.some.inj hs ▸ inv_detach st cid sid0 hlk hinv
  | clientExit cid =>
    by_cases h : cid ∈ st.clients
    · rw [stepEv, if_pos h] at hs
      exact Option.some.inj hs ▸ inv_removeClient st cid hinv
    · rw [stepEv, if_neg h] at hs
      exact absurd hs (by simp)
  | broadcastFail cid =>
    by_cases h : cid ∈ st.clients
    · rw [stepEv, if_pos h] at hs
      exact Option.some.inj hs ▸ inv_removeClient st cid hinv
    · rw [stepEv, if_neg h] at hs
      exact absurd hs (by simp)
  | killSession sid =>
    by_cases h : sid ∈ st.sessions
    · cases hlk : st.attached.lookup sid with
      | none =>
        rw [stepEv, if_pos h, hlk] at hs
        exact absurd hs (by simp)
      | some cids =>
        rw [stepEv, if_pos h, hlk] at hs
        exact Option.some.inj hs ▸ inv_kill st sid cids hlk hinv
    · rw [stepEv, if_neg h] at hs
      exact Option.some.inj hs ▸ hinv

theorem reachableD_inv (st : FanState) (h : ReachableD st) : Inv st := by
  induction h with
  | init =>
    refine ⟨?_, ?_, ?_, ?_⟩ <;> simp [InvMain, InvPtr, InvKeys, InvSessAtt, initFan]
  | step st e st' hr hd hs ih => exact stepEv_preserves_inv st e st' hd hs ih

/-- C9 (amended): in every daemon state reachable by traces in which no
client sends ATTACH or NEW_SESSION while already attached, every client
id present in any session's attachment set belongs to an open connection
— every exit path (EOF, error, broadcast-write failure) removes the
client from the attachment set of the session recorded as its current
one. (Without the discipline proviso the claim fails: see the
counterexample, where a re-attaching client leaves a stale id behind.) -/
theorem attached_clients_are_open (st : FanState) (h : ReachableD st)
    (p : Nat × List Nat) (hp : p ∈ st.attached) (cid : Nat) (hcid : cid ∈ p.snd) :
    cid ∈ st.clients :=
  (reachableD_inv st h).1 p hp cid hcid

/-- Witness for C9's amended theorem: the reachable state after `accept
0` and one NEW_SESSION, where client 0 sits in session 0's attachment
set and is indeed open. -/
theorem attached_clients_are_open_witness :
    0 ∈ (FanState.mk [0] [(0, 0)] [0] [(0, [0])]).clients :=
  attached_clients_are_open ⟨[0], [(0, 0)], [0], [(0, [0])]⟩
    (ReachableD.step ⟨[0], [], [], []⟩ (.newSession 0 0) _
      (ReachableD.step initFan (.accept 0) _ ReachableD.init trivial (by decide))
      rfl (by decide))
    (0, [0]) (by decide) 0 (by decide)

end Txtmux
